import Mathlib

/-!
Shallow embedding of the client-side view-state engine of the Game-Tracker
repository (src/static/js/app.js), together with theorems checking the
natural-language specification against it.

The script declares several functions more than once; under JavaScript
function-declaration hoisting the lexically last declaration of each name is
the one in effect, so every definition below is translated from the last
declaration of the corresponding function in app.js.
-/

namespace GameTracker

/-- JS `String.prototype.toLowerCase()`, modelled as per-character lowering
of the string's characters. -/
def jsToLower (s : String) : String := ⟨s.data.map Char.toLower⟩

/-- Helper for `jsIncludes`: does `needle` occur as a contiguous run starting
at some position of the given character list? -/
def occursIn (needle : List Char) : List Char → Bool
  | [] => needle.isEmpty
  | c :: rest => needle.isPrefixOf (c :: rest) || occursIn needle rest

/-- JS `hay.includes(needle)`: substring containment. -/
def jsIncludes (hay needle : String) : Bool := occursIn needle.data hay.data

/-- The `completion_percentage` summary nested under a game's
`achievement_progress` (accessed as `achievement_progress?.completion_percentage`
in app.js). -/
structure AchievementProgress where
  completion_percentage : Option ℚ
deriving DecidableEq, Repr

/-- A game record as the client receives it from `GET /api/games` and stores
it in `allGames` (fields as read by app.js; optional fields model JS
`undefined`/`null`). -/
structure Game where
  id : ℕ
  title : String
  platform : Option String
  status : Option String
  rating : Option ℕ
  hours_played : Option ℚ
  completion_date : Option String
  tags : Option (List String)
  notes : Option String
  steam_app_id : Option ℕ
  cover_url : Option String
  is_favorite : Bool
  created_at : ℤ
  achievement_progress : Option AchievementProgress
deriving DecidableEq, Repr

/-- The `currentFilters` object: `search` is stored lowercased by
`filterGames` (app.js:2779), `status` and `platform` are stored verbatim,
with the empty string meaning "any". -/
structure Filters where
  search : String
  status : String
  platform : String
deriving DecidableEq, Repr

/-- The `matchSearch` conjunct of the filter predicate in
`applySortingAndFiltering` (app.js:2856-2859). -/
def matchSearch (search : String) (g : Game) : Bool :=
  search == "" ||
  jsIncludes (jsToLower g.title) search ||
  jsIncludes (jsToLower (g.notes.getD "")) search ||
  (g.tags.getD []).any (fun t => jsIncludes (jsToLower t) search)

/-- The `matchStatus` conjunct (app.js:2861): empty filter matches anything,
otherwise strict equality against the game's `status`. -/
def matchStatus (status : String) (g : Game) : Bool :=
  status == "" || g.status == some status

/-- The `matchPlatform` conjunct (app.js:2862). -/
def matchPlatform (platform : String) (g : Game) : Bool :=
  platform == "" || g.platform == some platform

/-- The whole filter callback of `applySortingAndFiltering` (app.js:2855-2865). -/
def gameMatches (f : Filters) (g : Game) : Bool :=
  matchSearch f.search g && matchStatus f.status g && matchPlatform f.platform g

/-- The filtering step `filtered = filtered.filter(game => ...)` of
`applySortingAndFiltering` (app.js:2855-2865). -/
def applyFilteringStep (f : Filters) (games : List Game) : List Game :=
  games.filter (gameMatches f)

/-- `(g.hours_played || 0)` from the hours comparators (app.js:2877, 2880). -/
def hoursOr0 (g : Game) : ℚ := g.hours_played.getD 0

/-- `(g.rating || 0)` from the rating comparators (app.js:2883, 2886). -/
def ratingOr0 (g : Game) : ℕ := g.rating.getD 0

/-- `g.achievement_progress?.completion_percentage || 0` (app.js:2890-2891). -/
def completionOr0 (g : Game) : ℚ :=
  (g.achievement_progress.bind AchievementProgress.completion_percentage).getD 0

/-- `(g.status || '')` from the status comparator (app.js:2900). -/
def statusOrEmpty (g : Game) : String := g.status.getD ""

/-- `(g.platform || '')` from the platform comparator (app.js:2903). -/
def platformOrEmpty (g : Game) : String := g.platform.getD ""

/-- Lexicographic comparison of character lists by code point:
`charListLe as bs` holds iff `as` is not strictly greater than `bs`.  This is
`a.localeCompare(b) <= 0` under code-point collation. -/
def charListLe : List Char → List Char → Bool
  | [], _ => true
  | _ :: _, [] => false
  | a :: as, b :: bs =>
    if a < b then true else if b < a then false else charListLe as bs

/-- `a.localeCompare(b) <= 0`, modelled as code-point lexicographic order. -/
def strLe (a b : String) : Bool := charListLe a.data b.data

/-- The cases of the comparator switch in `applySortingAndFiltering`
(app.js:2868-2909), one constructor per `case` label, with `recent` also
standing for the switch's `default`. -/
inductive SortTag where
  | title | titleDesc | hours | hoursAsc | rating | ratingAsc
  | completion | completionAsc | status | platform | recent
deriving DecidableEq, Repr

/-- Which `case` of the comparator switch a `currentSort` string selects
(app.js:2869-2906); every unknown string falls into `default`, which shares
its body with `recent` (app.js:2905-2907). -/
def tagOf (sortKey : String) : SortTag :=
  match sortKey with
  | "title" => .title
  | "title-desc" => .titleDesc
  | "hours" => .hours
  | "hours-asc" => .hoursAsc
  | "rating" => .rating
  | "rating-asc" => .ratingAsc
  | "completion" => .completion
  | "completion-asc" => .completionAsc
  | "status" => .status
  | "platform" => .platform
  | _ => .recent

/-- The comparator of each switch case, expressed as the relation "the
comparator returns a value ≤ 0 on (a, b)", i.e. "a may come before b".
`localeCompare` is modelled as lexicographic string comparison;
`new Date(x) - new Date(y)` as integer timestamp subtraction. -/
def tagLe : SortTag → Game → Game → Bool
  | .title, a, b => strLe a.title b.title
  | .titleDesc, a, b => strLe b.title a.title
  | .hours, a, b => decide (hoursOr0 b ≤ hoursOr0 a)
  | .hoursAsc, a, b => decide (hoursOr0 a ≤ hoursOr0 b)
  | .rating, a, b => decide (ratingOr0 b ≤ ratingOr0 a)
  | .ratingAsc, a, b => decide (ratingOr0 a ≤ ratingOr0 b)
  | .completion, a, b => decide (completionOr0 b ≤ completionOr0 a)
  | .completionAsc, a, b => decide (completionOr0 a ≤ completionOr0 b)
  | .status, a, b => strLe (statusOrEmpty a) (statusOrEmpty b)
  | .platform, a, b => strLe (platformOrEmpty a) (platformOrEmpty b)
  | .recent, a, b => decide (b.created_at ≤ a.created_at)

/-- The whole comparator switch (app.js:2868-2909). -/
def sortLe (sortKey : String) (a b : Game) : Bool := tagLe (tagOf sortKey) a b

/-- `sortLe` as a relation, for use with `List.insertionSort`. -/
def sortRel (sortKey : String) (a b : Game) : Prop := sortLe sortKey a b = true

instance instDecSortRel (sortKey : String) : DecidableRel (sortRel sortKey) :=
  fun a b => inferInstanceAs (Decidable (sortLe sortKey a b = true))

/-- The sorting step `filtered.sort((a, b) => ...)` (app.js:2868-2909).
`Array.prototype.sort` is stable (ECMAScript 2019), and for a consistent
comparator a stable sort is uniquely determined, so it is modelled by the
stable `List.insertionSort` on the relation "comparator ≤ 0". -/
def applySortingStep (sortKey : String) (l : List Game) : List Game :=
  List.insertionSort (sortRel sortKey) l

/-- The module-level view state read and written by
`applySortingAndFiltering`: the `allGames` cache, `currentFilters`,
`currentSort`, and (as `rendered`) the list last passed to `renderGames`. -/
structure EngineState where
  allGames : List Game
  filters : Filters
  sortKey : String
  rendered : List Game
deriving DecidableEq, Repr

/-- The body of `applySortingAndFiltering` (app.js:2851-2912): copy
`allGames`, filter the copy, sort it, and render the result.  The input
cache fields are untouched (the JS spread `[...allGames]` copies before the
in-place sort; see `applyBodyStore` below for the heap-level model). -/
def applySortingAndFiltering (st : EngineState) : EngineState :=
  { st with rendered := applySortingStep st.sortKey (applyFilteringStep st.filters st.allGames) }

/-- `filterGames` (app.js:2778-2785): reads the three filter inputs, stores
the search box value lowercased, and re-derives the visible list. -/
def filterGames (st : EngineState) (searchInput statusInput platformInput : String) : EngineState :=
  applySortingAndFiltering
    { st with filters := ⟨jsToLower searchInput, statusInput, platformInput⟩ }

/-- The game `{title:"Alpha", hours_played:5, rating:3}` from the spec's
scenarios. -/
def alphaGame : Game :=
  { id := 1, title := "Alpha", platform := none, status := none, rating := some 3,
    hours_played := some 5, completion_date := none, tags := none, notes := none,
    steam_app_id := none, cover_url := none, is_favorite := false, created_at := 0,
    achievement_progress := none }

/-- The game `{title:"Beta", hours_played:20, rating:5}` from the spec's
scenarios. -/
def betaGame : Game :=
  { id := 2, title := "Beta", platform := none, status := none, rating := some 5,
    hours_played := some 20, completion_date := none, tags := none, notes := none,
    steam_app_id := none, cover_url := none, is_favorite := false, created_at := 0,
    achievement_progress := none }

/-- "occurs case-insensitively as a substring", in the spec's words: the
needle occurs in the hay after lowercasing both sides. -/
def occursCI (needle hay : String) : Prop :=
  jsIncludes (jsToLower hay) (jsToLower needle) = true

/-- Inclusion condition written from the spec's words (§4.1
`applyFiltering`): a game is included iff (search empty OR case-insensitive
substring of title, notes, or some tag) AND (status filter empty OR exact
match) AND (platform filter empty OR exact match).  `search`, `status`,
`platform` here are the raw UI inputs. -/
def specIncluded (search status platform : String) (g : Game) : Prop :=
  (search = "" ∨ occursCI search g.title ∨ occursCI search (g.notes.getD "") ∨
    ∃ t ∈ g.tags.getD [], occursCI search t) ∧
  (status = "" ∨ g.status = some status) ∧
  (platform = "" ∨ g.platform = some platform)

lemma jsToLower_eq_empty_iff (s : String) : jsToLower s = "" ↔ s = "" := by
  cases s with
  | mk data =>
    simp [jsToLower, String.ext_iff]

lemma gameMatches_iff (search status platform : String) (g : Game) :
    gameMatches ⟨jsToLower search, status, platform⟩ g = true ↔
      specIncluded search status platform g := by
  simp only [gameMatches, matchSearch, matchStatus, matchPlatform, specIncluded, occursCI,
    Bool.and_eq_true, Bool.or_eq_true, beq_iff_eq, List.any_eq_true,
    jsToLower_eq_empty_iff, and_assoc, or_assoc]

/-- C1: a game passes the filtering step of `applySortingAndFiltering` iff
(the search string is empty OR occurs case-insensitively as a substring of
its title, its notes, or some tag) AND (the status filter is empty OR equals
its status exactly) AND (the platform filter is empty OR equals its platform
exactly); and filtering the two-game library [Alpha, Beta] with search
"alp" and empty status/platform filters yields exactly [Alpha]. -/
theorem applyFiltering_correct :
    (∀ (games : List Game) (search status platform : String) (g : Game),
        g ∈ applyFilteringStep ⟨jsToLower search, status, platform⟩ games ↔
          g ∈ games ∧ specIncluded search status platform g)
    ∧ applyFilteringStep ⟨jsToLower "alp", "", ""⟩ [alphaGame, betaGame] = [alphaGame] := by
  constructor
  · intro games search status platform g
    simp [applyFilteringStep, List.mem_filter, gameMatches_iff]
  · decide

lemma charListLe_total : ∀ as bs : List Char,
    charListLe as bs = true ∨ charListLe bs as = true := by
  intro as
  induction as with
  | nil => intro bs; left; rfl
  | cons a as ih =>
    intro bs
    cases bs with
    | nil => right; rfl
    | cons b bs =>
      rcases lt_trichotomy a b with h | h | h
      · left; simp [charListLe, h]
      · subst h
        simpa [charListLe, lt_irrefl] using ih bs
      · right; simp [charListLe, h, lt_asymm h]

lemma charListLe_trans : ∀ as bs cs : List Char, charListLe as bs = true →
    charListLe bs cs = true → charListLe as cs = true := by
  intro as
  induction as with
  | nil => intro bs cs h1 h2; rfl
  | cons a as ih =>
    intro bs cs h1 h2
    cases bs with
    | nil => simp [charListLe] at h1
    | cons b bs =>
      cases cs with
      | nil => simp [charListLe] at h2
      | cons c cs =>
        rcases lt_trichotomy a b with hab | hab | hab
        · rcases lt_trichotomy b c with hbc | hbc | hbc
          · simp [charListLe, lt_trans hab hbc]
          · subst hbc; simp [charListLe, hab]
          · rw [charListLe, if_neg (lt_asymm hbc), if_pos hbc] at h2
            simp at h2
        · subst hab
          rw [charListLe] at h1
          simp only [lt_irrefl, if_false] at h1
          rcases lt_trichotomy a c with hac | hac | hac
          · simp [charListLe, hac]
          · subst hac
            rw [charListLe] at h2 ⊢
            simp only [lt_irrefl, if_false] at h2 ⊢
            exact ih bs cs h1 h2
          · rw [charListLe, if_neg (lt_asymm hac), if_pos hac] at h2
            simp at h2
        · rw [charListLe, if_neg (lt_asymm hab), if_pos hab] at h1
          simp at h1

lemma tagLe_total (t : SortTag) (a b : Game) :
    tagLe t a b = true ∨ tagLe t b a = true := by
  cases t <;>
    simp only [tagLe, strLe, decide_eq_true_eq] <;>
    first
      | exact charListLe_total _ _
      | exact le_total _ _

lemma tagLe_trans (t : SortTag) (a b c : Game) (h1 : tagLe t a b = true)
    (h2 : tagLe t b c = true) : tagLe t a c = true := by
  cases t <;>
    simp only [tagLe, strLe, decide_eq_true_eq] at h1 h2 ⊢ <;>
    first
      | exact charListLe_trans _ _ _ h1 h2
      | exact charListLe_trans _ _ _ h2 h1
      | exact le_trans h1 h2
      | exact le_trans h2 h1

/-- The comparator table of the spec (§4.1 `applySorting`), written from
its words: lexicographic on title (both directions), numeric on
`hours_played`, `rating`, and achievement completion percentage with a
missing value treated as 0 (each in both directions), lexicographic on
status/platform with a missing value treated as the empty string, and
descending by `created_at` for `recent` (the default).  The relation reads
"a may come before b". -/
def specTagLe : SortTag → Game → Game → Prop
  | .title, a, b => charListLe a.title.data b.title.data = true
  | .titleDesc, a, b => charListLe b.title.data a.title.data = true
  | .hours, a, b => (b.hours_played.getD 0 : ℚ) ≤ a.hours_played.getD 0
  | .hoursAsc, a, b => (a.hours_played.getD 0 : ℚ) ≤ b.hours_played.getD 0
  | .rating, a, b => (b.rating.getD 0 : ℕ) ≤ a.rating.getD 0
  | .ratingAsc, a, b => (a.rating.getD 0 : ℕ) ≤ b.rating.getD 0
  | .completion, a, b =>
      ((b.achievement_progress.bind AchievementProgress.completion_percentage).getD 0 : ℚ) ≤
        (a.achievement_progress.bind AchievementProgress.completion_percentage).getD 0
  | .completionAsc, a, b =>
      ((a.achievement_progress.bind AchievementProgress.completion_percentage).getD 0 : ℚ) ≤
        (b.achievement_progress.bind AchievementProgress.completion_percentage).getD 0
  | .status, a, b => charListLe (a.status.getD "").data (b.status.getD "").data = true
  | .platform, a, b => charListLe (a.platform.getD "").data (b.platform.getD "").data = true
  | .recent, a, b => b.created_at ≤ a.created_at

lemma tagLe_iff_specTagLe (t : SortTag) (a b : Game) :
    tagLe t a b = true ↔ specTagLe t a b := by
  cases t <;>
    simp [tagLe, specTagLe, strLe, hoursOr0, ratingOr0, completionOr0,
      statusOrEmpty, platformOrEmpty]

/-- C2: for every sort key, the sorting step of `applySortingAndFiltering`
is a permutation of its input ordered according to the spec's comparator
table (with a missing `hours_played` treated as 0 for the hours keys, and
likewise for the other keys' missing values); and on the spec's two-game
library, sort key "hours" yields [Beta, Alpha] while sort key "title"
yields [Alpha, Beta]. -/
theorem applySorting_per_table :
    (∀ (k : String) (l : List Game),
        List.Perm (applySortingStep k l) l ∧
        (applySortingStep k l).Sorted (specTagLe (tagOf k)))
    ∧ applySortingStep "hours" [alphaGame, betaGame] = [betaGame, alphaGame]
    ∧ applySortingStep "title" [alphaGame, betaGame] = [alphaGame, betaGame] := by
  refine ⟨fun k l => ⟨List.perm_insertionSort _ l, ?_⟩, by decide, by decide⟩
  haveI : IsTotal Game (sortRel k) := ⟨fun a b => tagLe_total (tagOf k) a b⟩
  haveI : IsTrans Game (sortRel k) := ⟨fun a b c => tagLe_trans (tagOf k) a b c⟩
  exact (List.sorted_insertionSort (sortRel k) l).imp
    (fun h => (tagLe_iff_specTagLe (tagOf k) _ _).mp h)

/-- C3: the filter-then-sort derivation is deterministic and idempotent:
applying `applySortingAndFiltering` twice to a state yields the same state
as applying it once, and identical inputs yield identical rendered output. -/
theorem derivation_deterministic_idempotent :
    (∀ st : EngineState,
        applySortingAndFiltering (applySortingAndFiltering st) = applySortingAndFiltering st)
    ∧ (∀ s t : EngineState, s = t →
        (applySortingAndFiltering s).rendered = (applySortingAndFiltering t).rendered) := by
  constructor
  · intro st
    rfl
  · intro s t h
    rw [h]

/-- A small concrete engine state used to witness hypotheses at concrete
inputs. -/
def demoState : EngineState := ⟨[alphaGame, betaGame], ⟨"", "", ""⟩, "hours", []⟩

/-- Witness for C3 at the concrete demo state. -/
theorem derivation_idempotent_witness :
    applySortingAndFiltering (applySortingAndFiltering demoState) =
        applySortingAndFiltering demoState ∧
    (applySortingAndFiltering demoState).rendered =
        (applySortingAndFiltering demoState).rendered :=
  ⟨derivation_deterministic_idempotent.1 demoState,
   derivation_deterministic_idempotent.2 demoState demoState rfl⟩

/-- C9: every game that `applySortingAndFiltering` renders is an element of
`allGames`, and the rendered list is never longer than `allGames`. -/
theorem rendered_subset_allGames (st : EngineState) (g : Game) :
    (g ∈ (applySortingAndFiltering st).rendered → g ∈ st.allGames) ∧
    (applySortingAndFiltering st).rendered.length ≤ st.allGames.length := by
  constructor
  · intro hg
    have h1 :=
      (List.perm_insertionSort (sortRel st.sortKey)
        (applyFilteringStep st.filters st.allGames)).mem_iff.mp hg
    exact (List.mem_filter.mp h1).1
  · have h2 :=
      (List.perm_insertionSort (sortRel st.sortKey)
        (applyFilteringStep st.filters st.allGames)).length_eq
    calc (applySortingAndFiltering st).rendered.length
        = (applyFilteringStep st.filters st.allGames).length := h2
      _ ≤ st.allGames.length := List.length_filter_le _ _

/-- Witness for C9 at a concrete state: Alpha is rendered and indeed belongs
to the cache, whose length bounds the rendered length. -/
theorem rendered_subset_allGames_witness :
    alphaGame ∈ demoState.allGames ∧
    (applySortingAndFiltering demoState).rendered.length ≤ demoState.allGames.length :=
  ⟨(rendered_subset_allGames demoState alphaGame).1 (by decide),
   (rendered_subset_allGames demoState alphaGame).2⟩

lemma getD_append_left {γ : Type} (l l2 : List γ) (n : ℕ) (d : γ) (h : n < l.length) :
    (l ++ l2).getD n d = l.getD n d := by
  induction l generalizing n with
  | nil => simp at h
  | cons a as ih =>
    cases n with
    | zero => rfl
    | succ m =>
      simp only [List.length_cons] at h
      exact ih m (by omega)

lemma getD_concat_self {γ : Type} (l : List γ) (a d : γ) :
    (l ++ [a]).getD l.length d = a := by
  induction l with
  | nil => rfl
  | cons b bs ih => exact ih

lemma getD_set_ne {γ : Type} (l : List γ) (i j : ℕ) (a d : γ) (h : i ≠ j) :
    (l.set i a).getD j d = l.getD j d := by
  induction l generalizing i j with
  | nil => rfl
  | cons b bs ih =>
    cases i with
    | zero =>
      cases j with
      | zero => exact absurd rfl h
      | succ m => rfl
    | succ n =>
      cases j with
      | zero => rfl
      | succ m => exact ih n m (fun e => h (by rw [e]))

lemma getD_set_self {γ : Type} (l : List γ) (i : ℕ) (a d : γ) (h : i < l.length) :
    (l.set i a).getD i d = a := by
  induction l generalizing i with
  | nil => simp at h
  | cons b bs ih =>
    cases i with
    | zero => rfl
    | succ n =>
      simp only [List.length_cons] at h
      exact ih n (by omega)

/-- A heap of JS arrays, indexed by allocation order; models the array
objects live during one call of `applySortingAndFiltering`. -/
structure Store where
  heap : List (List Game)
deriving DecidableEq, Repr

/-- Dereference the array object with the given id. -/
def readArr (σ : Store) (i : ℕ) : List Game := σ.heap.getD i []

/-- Allocate a fresh array object holding the given elements (returns the
new store and the fresh id). -/
def allocArr (σ : Store) (a : List Game) : Store × ℕ :=
  (⟨σ.heap ++ [a]⟩, σ.heap.length)

/-- Overwrite the array object with the given id in place. -/
def writeArr (σ : Store) (i : ℕ) (a : List Game) : Store :=
  ⟨σ.heap.set i a⟩

/-- The body of `applySortingAndFiltering` (app.js:2851-2912) at the level
of array objects: `let filtered = [...allGames]` allocates a copy,
`filtered = filtered.filter(...)` allocates the filtered array and rebinds
the variable, `filtered.sort(...)` mutates that array in place, and
`renderGames(filtered)` reads it.  `gid` is the id of the array the
module-level `allGames` binding points to; it is never written. -/
def applyBodyStore (σ : Store) (gid : ℕ) (f : Filters) (k : String) :
    Store × List Game :=
  let a1 := allocArr σ (readArr σ gid)
  let a2 := allocArr a1.1 ((readArr a1.1 a1.2).filter (gameMatches f))
  let σ3 := writeArr a2.1 a2.2 (List.insertionSort (sortRel k) (readArr a2.1 a2.2))
  (σ3, readArr σ3 a2.2)

/-- C10: one call of `applySortingAndFiltering` never mutates the array that
`allGames` points to — after the call it holds exactly the same elements in
the same fetch order — and the list handed to `renderGames` is the pure
filter-then-sort derivation of that unchanged cache. -/
theorem applyBody_preserves_allGames (σ : Store) (gid : ℕ) (f : Filters) (k : String)
    (h : gid < σ.heap.length) :
    readArr (applyBodyStore σ gid f k).1 gid = readArr σ gid ∧
    (applyBodyStore σ gid f k).2 =
      applySortingStep k (applyFilteringStep f (readArr σ gid)) := by
  constructor
  · simp only [applyBodyStore, allocArr, writeArr, readArr]
    rw [getD_set_ne _ _ _ _ _ (by simp; omega)]
    rw [getD_append_left _ _ _ _ (by simp; omega)]
    exact getD_append_left _ _ _ _ h
  · simp only [applyBodyStore, allocArr, writeArr, readArr]
    rw [getD_set_self _ _ _ _ (by simp)]
    rw [getD_concat_self, getD_concat_self]
    rfl

/-- Witness for C10 at a concrete one-array heap holding the two-game
library. -/
theorem applyBody_preserves_allGames_witness :
    readArr (applyBodyStore ⟨[[alphaGame, betaGame]]⟩ 0 ⟨"", "", ""⟩ "hours").1 0 =
        readArr ⟨[[alphaGame, betaGame]]⟩ 0 ∧
    (applyBodyStore ⟨[[alphaGame, betaGame]]⟩ 0 ⟨"", "", ""⟩ "hours").2 =
        applySortingStep "hours" (applyFilteringStep ⟨"", "", ""⟩ (readArr ⟨[[alphaGame, betaGame]]⟩ 0)) :=
  applyBody_preserves_allGames ⟨[[alphaGame, betaGame]]⟩ 0 ⟨"", "", ""⟩ "hours" (by decide)

/-- The outcome of `fetch('/api/games')` as `fetchGames` observes it: the
promise rejects (network error), or a response arrives with an HTTP status
and a JSON payload. -/
inductive FetchOutcome where
  | rejected : FetchOutcome
  | response : ℕ → List Game → FetchOutcome
deriving DecidableEq, Repr

/-- `Response.ok`: status in the 2xx range. -/
def resOk (status : ℕ) : Bool := decide (200 ≤ status) && decide (status ≤ 299)

/-- The effective `fetchGames` (app.js:5172-5183, the last declaration of
that name): on a response with `!res.ok` it throws, and the catch block only
logs and injects a "Failed to load games" notice; only on an ok response is
`allGames` assigned and the view re-derived.  The returned Bool records
whether the error notice was shown. -/
def fetchGames (st : EngineState) (r : FetchOutcome) : EngineState × Bool :=
  match r with
  | .rejected => (st, true)
  | .response status payload =>
    if resOk status then
      (applySortingAndFiltering { st with allGames := payload }, false)
    else
      (st, true)

/-- C4: every failing read of the games list — a rejected fetch or a
non-success HTTP status — leaves the whole engine state (in particular
`allGames`) unchanged and surfaces the error notice; the failed payload is
never copied into `allGames`. -/
theorem fetchGames_failure_preserves_allGames :
    (∀ st : EngineState, fetchGames st .rejected = (st, true))
    ∧ (∀ (st : EngineState) (status : ℕ) (payload : List Game),
        resOk status = false → fetchGames st (.response status payload) = (st, true)) := by
  constructor
  · intro st
    rfl
  · intro st status payload hbad
    simp [fetchGames, hbad]

/-- Witness for C4: a 500 response carrying a bogus payload leaves the demo
state untouched and shows the notice. -/
theorem fetchGames_failure_witness :
    fetchGames demoState (.response 500 [betaGame]) = (demoState, true) :=
  fetchGames_failure_preserves_allGames.2 demoState 500 [betaGame] (by decide)

/-- An entry of the `top10Games` draft list as `addGameToTop10`
(app.js:4675-4683) builds it and `loadTop10` receives it; note the draft
carries no explicit position — order in the list is the ranking. -/
structure DraftEntry where
  game_id : ℕ
  title : String
  platform : Option String
  hours_played : Option ℚ
  rating : Option ℕ
  cover_url : Option String
  why_i_love_it : Option String
deriving DecidableEq, Repr

/-- The draft entry `addGameToTop10` pushes for a found game
(app.js:4675-4683). -/
def mkDraftEntry (g : Game) : DraftEntry :=
  ⟨g.id, g.title, g.platform, g.hours_played, g.rating, g.cover_url, some ""⟩

/-- `addGameToTop10` (app.js:4667-4692, last declaration): refuses with an
alert when the draft already holds 10 entries, otherwise appends an entry
for the found game.  The Bool records whether the "Top 10 is full" refusal
alert was shown. -/
def addGameToTop10 (top10 : List DraftEntry) (allGames : List Game) (gameId : ℕ) :
    List DraftEntry × Bool :=
  if 10 ≤ top10.length then (top10, true)
  else
    match allGames.find? (fun g => g.id == gameId) with
    | some game => (top10 ++ [mkDraftEntry game], false)
    | none => (top10, false)

/-- `removeFromTop10` (app.js:5290-5293, last declaration): drop every entry
whose `game_id` matches. -/
def removeFromTop10 (top10 : List DraftEntry) (gameId : ℕ) : List DraftEntry :=
  top10.filter (fun e => !(e.game_id == gameId))

/-- `updateTop10Reason` (app.js:1857-1862): update the annotation of the
first entry with the given id. -/
def updateTop10Reason (gameId : ℕ) (reason : String) :
    List DraftEntry → List DraftEntry
  | [] => []
  | e :: es =>
    if e.game_id == gameId then { e with why_i_love_it := some reason } :: es
    else e :: updateTop10Reason gameId reason es

/-- Draft states of `top10Games` reachable during an editing session.  The
base case is a load from `GET /api/top10` (app.js:5185-5193); the backend of
record keeps at most 10 entries (spec §3, Top10Entry invariant), which is
the only spec-modelled ingredient here.  The steps are the add, remove, and
annotate operations, and the reorderings done by drag-drop splices
(app.js:4828-4829) and the move-up/move-down swaps (app.js:1865-1877), all
of which permute the list. -/
inductive ReachableTop10 : List DraftEntry → Prop
  | load (l : List DraftEntry) (h : l.length ≤ 10) : ReachableTop10 l
  | add (l : List DraftEntry) (ag : List Game) (gid : ℕ) :
      ReachableTop10 l → ReachableTop10 (addGameToTop10 l ag gid).1
  | remove (l : List DraftEntry) (gid : ℕ) :
      ReachableTop10 l → ReachableTop10 (removeFromTop10 l gid)
  | reorder (l l2 : List DraftEntry) (h : List.Perm l2 l) :
      ReachableTop10 l → ReachableTop10 l2
  | annotate (l : List DraftEntry) (gid : ℕ) (reason : String) :
      ReachableTop10 l → ReachableTop10 (updateTop10Reason gid reason l)

lemma updateTop10Reason_length (gid : ℕ) (reason : String) :
    ∀ l : List DraftEntry, (updateTop10Reason gid reason l).length = l.length := by
  intro l
  induction l with
  | nil => rfl
  | cons e es ih =>
    by_cases h : (e.game_id == gid) = true
    · simp [updateTop10Reason, h]
    · simp [updateTop10Reason, h, ih]

/-- C5: every reachable Top-10 draft state has at most 10 entries, and an
add against a full draft is refused with the user-visible alert, leaving the
draft unchanged. -/
theorem top10_capacity :
    (∀ l : List DraftEntry, ReachableTop10 l → l.length ≤ 10)
    ∧ (∀ (l : List DraftEntry) (ag : List Game) (gid : ℕ),
        l.length = 10 → addGameToTop10 l ag gid = (l, true)) := by
  constructor
  · intro l hl
    induction hl with
    | load l h => exact h
    | add l ag gid _ ih =>
      by_cases hfull : 10 ≤ l.length
      · simpa [addGameToTop10, hfull] using ih
      · rcases hf : List.find? (fun g => g.id == gid) ag with _ | game
        · simpa [addGameToTop10, hfull, hf] using ih
        · simp only [addGameToTop10, if_neg hfull, hf, List.length_append,
            List.length_cons, List.length_nil]
          omega
    | remove l gid _ ih => exact le_trans (List.length_filter_le _ _) ih
    | reorder l l2 h _ ih => exact h.length_eq ▸ ih
    | annotate l gid reason _ ih => exact (updateTop10Reason_length gid reason l) ▸ ih
  · intro l ag gid hlen
    simp [addGameToTop10, hlen]

/-- A full draft of ten entries, used to witness the capacity refusal. -/
def fullDraft : List DraftEntry :=
  (List.range 10).map (fun i => ⟨i, "G", none, none, none, none, some ""⟩)

/-- Witness for C5: the ten-entry draft is reachable and within capacity,
and an eleventh add is refused and leaves it unchanged. -/
theorem top10_capacity_witness :
    fullDraft.length ≤ 10 ∧
    addGameToTop10 fullDraft [alphaGame, betaGame] 1 = (fullDraft, true) :=
  ⟨top10_capacity.1 fullDraft (ReachableTop10.load fullDraft (by decide)),
   top10_capacity.2 fullDraft [alphaGame, betaGame] 1 (by decide)⟩

/-- An element of the JSON array `saveTop10` POSTs to `/api/top10`
(app.js:5256-5260). -/
structure SaveEntry where
  game_id : ℕ
  position : ℕ
  why_i_love_it : String
deriving DecidableEq, Repr

/-- The index-aware map underlying `top10Games.map((game, index) => ...)`
in `saveTop10` (app.js:5256-5260), with `i` the index of the head. -/
def saveEntriesFrom (i : ℕ) : List DraftEntry → List SaveEntry
  | [] => []
  | g :: gs => ⟨g.game_id, i + 1, g.why_i_love_it.getD ""⟩ :: saveEntriesFrom (i + 1) gs

/-- The full request body of `saveTop10` (app.js:5252-5268): the whole draft,
in order, with `position := index + 1`. -/
def saveTop10Payload (top10 : List DraftEntry) : List SaveEntry :=
  saveEntriesFrom 0 top10

lemma saveEntriesFrom_positions (l : List DraftEntry) :
    ∀ i : ℕ, (saveEntriesFrom i l).map SaveEntry.position = List.range' (i + 1) l.length := by
  induction l with
  | nil => intro i; rfl
  | cons g gs ih =>
    intro i
    simp only [saveEntriesFrom, List.map_cons, List.length_cons, List.range'_succ, ih (i + 1)]

lemma saveEntriesFrom_game_ids (l : List DraftEntry) :
    ∀ i : ℕ, (saveEntriesFrom i l).map SaveEntry.game_id = l.map DraftEntry.game_id := by
  induction l with
  | nil => intro i; rfl
  | cons g gs ih => intro i; simp [saveEntriesFrom, ih (i + 1)]

/-- C6: saving transmits the entire draft in order as one wholesale payload —
same length, same game ids in the same order, and entry `i` carries position
`i + 1`, so positions are always the contiguous run `1..N`; in particular
this holds for the draft obtained after any removal. -/
theorem saveTop10_positions_dense :
    (∀ l : List DraftEntry,
        (saveTop10Payload l).map SaveEntry.position = List.range' 1 l.length ∧
        (saveTop10Payload l).map SaveEntry.game_id = l.map DraftEntry.game_id ∧
        (saveTop10Payload l).length = l.length)
    ∧ (∀ (l : List DraftEntry) (gid : ℕ),
        (saveTop10Payload (removeFromTop10 l gid)).map SaveEntry.position =
          List.range' 1 (removeFromTop10 l gid).length) := by
  have hmain : ∀ l : List DraftEntry,
      (saveTop10Payload l).map SaveEntry.position = List.range' 1 l.length ∧
      (saveTop10Payload l).map SaveEntry.game_id = l.map DraftEntry.game_id ∧
      (saveTop10Payload l).length = l.length := by
    intro l
    refine ⟨saveEntriesFrom_positions l 0, saveEntriesFrom_game_ids l 0, ?_⟩
    have := congrArg List.length (saveEntriesFrom_positions l 0)
    simpa using this
  exact ⟨hmain, fun l gid => (hmain (removeFromTop10 l gid)).1⟩

/-- The client state the write handlers touch: the `isLoggedIn` flag and the
`allGames` cache. -/
structure AuthState where
  isLoggedIn : Bool
  allGames : List Game
deriving DecidableEq, Repr

/-- The user-visible outcome of a write request's response handling. -/
inductive WriteEffect where
  | successNotice : WriteEffect
  | genericErrorNotice : WriteEffect
  | sessionExpiredPrompt : WriteEffect
deriving DecidableEq, Repr

/-- The response handling of the effective `deleteGame` (app.js:3133-3167):
a 401 shows the "session has expired" alert, sets `isLoggedIn = false`,
refreshes the UI via `updateUIForAuth()`, and returns before `fetchGames()`;
any other status proceeds to refetch the server's list.  `server` is the
list a successful refetch returns. -/
def deleteGameResponse (st : AuthState) (status : ℕ) (server : List Game) :
    AuthState × WriteEffect :=
  if status == 401 then ({ st with isLoggedIn := false }, .sessionExpiredPrompt)
  else ({ st with allGames := server }, .successNotice)

/-- The response handling of the save-game click handler (app.js:3024-3031):
a 401 alerts and reloads the page without calling `fetchGames`; otherwise the
modal closes and the list is refetched. -/
inductive SaveGameEffect where
  | reloadPage : SaveGameEffect
  | proceedRefetch : SaveGameEffect
deriving DecidableEq, Repr

def saveGameClickResponse (st : AuthState) (status : ℕ) (server : List Game) :
    AuthState × SaveGameEffect :=
  if status == 401 then (st, .reloadPage)
  else ({ st with allGames := server }, .proceedRefetch)

/-- The response handling of the effective `saveTop10` (app.js:5252-5288):
any non-ok status — 401 included — only shows the generic
"Error saving Top 10" alert; the `isLoggedIn` flag is never touched and no
re-login prompt or UI refresh happens. -/
def saveTop10Response (st : AuthState) (status : ℕ) : AuthState × WriteEffect :=
  if resOk status then (st, .successNotice) else (st, .genericErrorNotice)

/-- Counterexample to C7 as stated: the Top-10 save is a write request, yet
on HTTP 401 the client keeps `isLoggedIn = true` and shows only the generic
error notice instead of the session-expired re-login prompt. -/
theorem write401_counterexample :
    (saveTop10Response ⟨true, [alphaGame]⟩ 401).1.isLoggedIn = true ∧
    (saveTop10Response ⟨true, [alphaGame]⟩ 401).2 = .genericErrorNotice := by
  decide

/-- C7 amended: on the delete-game write path a 401 reverts `isLoggedIn` to
false, prompts re-login, and leaves `allGames` untouched (the deletion is
not reflected); on the save-game path a 401 reloads the page without
touching `allGames`.  Other write paths (e.g. the Top-10 save) treat 401 as
a generic error. -/
theorem deleteGame_401_reverts_auth :
    ∀ (st : AuthState) (server : List Game),
      (deleteGameResponse st 401 server).1.isLoggedIn = false ∧
      (deleteGameResponse st 401 server).1.allGames = st.allGames ∧
      (deleteGameResponse st 401 server).2 = .sessionExpiredPrompt ∧
      saveGameClickResponse st 401 server = (st, .reloadPage) := by
  intro st server
  refine ⟨rfl, rfl, rfl, rfl⟩

/-- Whitespace as `String.prototype.trim` strips it (restricted to the
common ASCII whitespace characters). -/
def isJsSpace (c : Char) : Bool := c == ' ' || c == '\t' || c == '\n' || c == '\r'

/-- JS `s.trim()`: strip leading and trailing whitespace. -/
def jsTrim (s : String) : String :=
  ⟨((s.data.dropWhile isJsSpace).reverse.dropWhile isJsSpace).reverse⟩

/-- `e.target.value.trim().toLowerCase()` from the search listeners
(app.js:4588, 4603). -/
def jsTrimLower (s : String) : String := jsToLower (jsTrim s)

/-- One `input` event on the Top-10 search box: when it fired and the box's
value at that moment. -/
structure InputEvent where
  time : ℕ
  value : String
deriving DecidableEq, Repr

/-- A search term is acted on only when its trimmed length is at least 2
(app.js:4590, 4605). -/
def qualifies (e : InputEvent) : Bool := decide (2 ≤ (jsTrimLower e.value).length)

/-- Executions of `searchAvailableGames` due to the first listener attached
by the effective `setupTop10Search` (app.js:4587-4597): every qualifying
input event triggers a search immediately, with no delay. -/
def immediateSearches (evs : List InputEvent) : List (ℕ × String) :=
  (evs.filter qualifies).map (fun e => (e.time, jsTrimLower e.value))

/-- Executions due to the second, debounced listener (app.js:4601-4613):
every event first clears the pending timer, a qualifying event arms a timer
for 300ms later, and the timer fires only if no further event arrives within
those 300ms.  `evs` is assumed ordered by time. -/
def debouncedSearches : List InputEvent → List (ℕ × String)
  | [] => []
  | [e] =>
    if qualifies e then [(e.time + 300, jsTrimLower e.value)] else []
  | e :: e2 :: rest =>
    (if qualifies e && decide (e.time + 300 ≤ e2.time) then
        [(e.time + 300, jsTrimLower e.value)]
      else []) ++ debouncedSearches (e2 :: rest)

/-- All executions of `searchAvailableGames` caused by a time-ordered burst
of input events: both listeners attached by `setupTop10Search` run. -/
def searchExecutions (evs : List InputEvent) : List (ℕ × String) :=
  immediateSearches evs ++ debouncedSearches evs

/-- C8 evaluated at the failing input: typing "alpha" at t=0 and "alphab" at
t=100 — a burst closer together than 300ms — executes the search immediately
at t=0 and t=100 (the first listener has no delay), and additionally the
trailing debounced search at t=400; so a search runs before any 300ms quiet
period and the superseded search "alpha" is executed, both contrary to the
claim. -/
theorem debounce_violated_at_burst :
    searchExecutions [⟨0, "alpha"⟩, ⟨100, "alphab"⟩] =
      [(0, "alpha"), (100, "alphab"), (400, "alphab")] := by
  decide

end GameTracker
